import Mathlib

/-!
Verification development for the CBM 8032 serial frame receiver
(`src/lib/serial.rs`), the frame-rate tracker (`src/lib/fps.rs`) and the
consumer-facing handle.  Rust `u8`/`u32` values are modelled as `Nat`
(every counter in the synchronizer is bounded far below any wrap point:
`count ≤ 41`, `bufnum ≤ 52`), byte arrays as `List Nat`, and `f64` rate
values as `ℚ`.  The serial port is modelled as the list of bytes it will
deliver, in order; the intermediate 256-byte read chunking of
`receive_screen` is invisible to the byte-by-byte state machine and is
abstracted away.
-/

namespace Cbm

set_option maxRecDepth 100000

/-- `serial.rs`: `const DATA_PER_BUFFER: u32 = 40`. -/
def DATA_PER_BUFFER : Nat := 40

/-- `serial.rs`: `const TOTAL_BUFFERS_PER_FRAME: u32 = 51`. -/
def TOTAL_BUFFERS_PER_FRAME : Nat := 51

/-- `vis.rs`: `CBM_8032_FRAME_DATA_LEN = CHARS_PER_LINE * DATA_LINES = 80 * 25`. -/
def CBM_8032_FRAME_DATA_LEN : Nat := 80 * 25

/-- `vis.rs`: `enum Cbm8032FrameMode { Graphics, Text }`. -/
inductive Cbm8032FrameMode
  | Graphics
  | Text
  deriving DecidableEq, Repr

/-- `serial.rs`: `enum State { CountingZeros, InSync }`. -/
inductive State
  | CountingZeros
  | InSync
  deriving DecidableEq, Repr

/-- `serial.rs`: `struct ReceiverContext`.  The `rx_buffer` fields are the
read-chunking machinery abstracted away by the port-as-byte-list model. -/
structure ReceiverContext where
  state : State
  bufnum : Nat
  count : Nat
  buffer : List Nat
  screen_buffer : List Nat
  graphic : Cbm8032FrameMode
  deriving DecidableEq, Repr

/-- `serial.rs`: `fn init_receiver_context()`. -/
def init_receiver_context : ReceiverContext :=
  { state := State.CountingZeros
    bufnum := 0
    count := 0
    buffer := List.replicate 40 0
    screen_buffer := List.replicate CBM_8032_FRAME_DATA_LEN 0
    graphic := Cbm8032FrameMode.Graphics }

/-- `serial.rs`: `fn byte_to_mode(byte: u8)`. -/
def byte_to_mode (byte : Nat) : Cbm8032FrameMode :=
  match byte with
  | 0 => Cbm8032FrameMode.Graphics
  | _ => Cbm8032FrameMode.Text

/-- `serial.rs`: `fn handle_received_buffer`.  `copy_from_slice` of the
40-byte staging buffer into `screen_buffer[start..end]` is modelled as
`take start ++ buffer ++ drop end`; `buffer[0]` as `buffer.getD 0 0`
(the staging buffer always has length 40, so the default is never used). -/
def handle_received_buffer (context : ReceiverContext) : ReceiverContext :=
  if 0 < context.bufnum then
    if context.bufnum < TOTAL_BUFFERS_PER_FRAME then
      let bufidx := context.bufnum - 1
      let screen_start := bufidx * DATA_PER_BUFFER
      let screen_end := screen_start + DATA_PER_BUFFER
      { context with
          screen_buffer :=
            context.screen_buffer.take screen_start ++ context.buffer
              ++ context.screen_buffer.drop screen_end }
    else
      { context with graphic := byte_to_mode (context.buffer.getD 0 0) }
  else
    context

/-- `serial.rs`: `fn handle_received_byte`.  Returns the updated context and
the `screen_complete` flag.  The comparison `byte == context.bufnum as u8`
is modelled as `byte = context.bufnum % 256`. -/
def handle_received_byte (context : ReceiverContext) (byte : Nat) :
    ReceiverContext × Bool :=
  match context.state with
  | State.CountingZeros =>
    if byte = 0 then
      if context.count + 1 = 41 then
        ({ context with state := State.InSync, bufnum := 1, count := 0 }, false)
      else
        ({ context with count := context.count + 1 }, false)
    else
      ({ context with count := 0 }, false)
  | State.InSync =>
    if context.count < 40 then
      ({ context with
          buffer := context.buffer.set context.count byte
          count := context.count + 1 }, false)
    else if byte = context.bufnum % 256 then
      let context := handle_received_buffer context
      if context.bufnum + 1 = 52 then
        ({ context with
            bufnum := context.bufnum + 1
            count := 0
            state := State.CountingZeros }, true)
      else
        ({ context with bufnum := context.bufnum + 1, count := 0 }, false)
    else
      ({ context with state := State.CountingZeros, count := 0 }, false)

/-- The receiver loop (`fn run` driving `fn receive_screen`) applied to a
list of incoming bytes: feeds each byte to `handle_received_byte` and, on
every reported completion, records the frame the loop would construct
(`Cbm8032Frame::new(context.graphic, context.screen_buffer.clone())`). -/
def run_frames (context : ReceiverContext) :
    List Nat → ReceiverContext × List (Cbm8032FrameMode × List Nat)
  | [] => (context, [])
  | b :: bs =>
    let step := handle_received_byte context b
    let rest := run_frames step.1 bs
    (rest.1,
      (if step.2 then [(step.1.graphic, step.1.screen_buffer)] else []) ++ rest.2)

/-- Writing the bytes of `p` into `b` at consecutive indices starting at `c`,
as the staging loop of `handle_received_byte` does via `buffer.set`. -/
def write_from (c : Nat) (p b : List Nat) : List Nat :=
  match p with
  | [] => b
  | x :: xs => write_from (c + 1) xs (b.set c x)

/-- `serial.rs`: `fn receive_screen`, with the port modelled as the list of
bytes it will deliver.  Returns `some (context, rest)` when a frame
completion hands control back to the outer loop (`rest` being the bytes
still buffered), and `none` when the available bytes are exhausted without
any completion — in the source this is the case in which the inner loop
keeps spinning on reads and never returns to the outer loop. -/
def receive_screen (context : ReceiverContext) :
    List Nat → Option (ReceiverContext × List Nat)
  | [] => none
  | b :: bs =>
    let step := handle_received_byte context b
    if step.2 then some (step.1, bs) else receive_screen step.1 bs

/-- The byte stream of data sub-buffers numbered `j, j+1, ...`, each sent as
its 40 payload bytes followed by its sequence number. -/
def sub_buffers_from (j : Nat) : List (List Nat) → List Nat
  | [] => []
  | p :: ps => (p ++ [j]) ++ sub_buffers_from (j + 1) ps

/-- The byte stream of one complete frame as the device sends it: a 41-byte
zero run, the 50 data sub-buffers numbered 1..50, then the mode sub-buffer
numbered 51. -/
def frame_stream (ps : List (List Nat)) (m : List Nat) : List Nat :=
  List.replicate 41 0 ++ sub_buffers_from 1 ps ++ (m ++ [51])

/-- Modelled from the spec's data model: the abstract `accumulated_frame_data`
of the `InSync` state.  The code keeps no separate growing accumulator; it is
realized by the prefix of `screen_buffer` that the current `InSync` episode
has already written — `bufnum - 1` accepted sub-buffers of 40 bytes each.
While counting zeroes the abstract accumulator is empty. -/
def accumulated_frame_data (ctx : ReceiverContext) : List Nat :=
  match ctx.state with
  | State.CountingZeros => []
  | State.InSync => ctx.screen_buffer.take ((ctx.bufnum - 1) * DATA_PER_BUFFER)

/-- Structural invariant of reachable receiver contexts: fixed-size buffers,
and while in sync an expected buffer number in `1..51` with the staging
counter at most 40. -/
def CtxInv (ctx : ReceiverContext) : Prop :=
  ctx.buffer.length = 40 ∧ ctx.screen_buffer.length = 2000 ∧
    (ctx.state = State.InSync → 1 ≤ ctx.bufnum ∧ ctx.bufnum ≤ 51 ∧ ctx.count ≤ 40)

instance (ctx : ReceiverContext) : Decidable (CtxInv ctx) := by
  unfold CtxInv
  infer_instance

/-- The condition under which `handle_received_byte` loses synchronization:
in sync, staging buffer full, and the arriving sequence byte mismatching the
expected buffer number. -/
def sync_loss (ctx : ReceiverContext) (byte : Nat) : Prop :=
  ctx.state = State.InSync ∧ ¬ ctx.count < 40 ∧ ¬ byte = ctx.bufnum % 256

instance (ctx : ReceiverContext) (byte : Nat) : Decidable (sync_loss ctx byte) := by
  unfold sync_loss
  infer_instance

/-- `fps.rs`: `struct Inner`, with `Duration` deltas modelled as exact
rational seconds and the `last: Instant` field dropped — `Fps.sample` below
takes the measured delta directly, since real time is outside the model. -/
structure Inner where
  window : List ℚ
  avg : ℚ
  min : ℚ
  max : ℚ

/-- `fps.rs`: `Inner::calc_avg`: `1.0 / (sum of secs / window.len())`. -/
def Inner.calc_avg (i : Inner) : ℚ :=
  1 / (i.window.sum / i.window.length)

/-- `fps.rs`: `Inner::calc_min`:
`1.0 / window.iter().max().map(secs).unwrap_or(0.0)`. -/
def Inner.calc_min (i : Inner) : ℚ :=
  1 / ((i.window.max?).getD 0)

/-- `fps.rs`: `Inner::calc_max`:
`1.0 / window.iter().min().map(secs).unwrap_or(0.0)`. -/
def Inner.calc_max (i : Inner) : ℚ :=
  1 / ((i.window.min?).getD 0)

/-- `fps.rs`: `struct Fps`. -/
structure Fps where
  window_len : Nat
  inner : Inner

/-- `fps.rs`: `Fps::DEFAULT_WINDOW_LEN`. -/
def Fps.DEFAULT_WINDOW_LEN : Nat := 60

/-- `fps.rs`: `Fps::with_window_len`: empty window, all three rates 0. -/
def Fps.with_window_len (window_len : Nat) : Fps :=
  { window_len, inner := { window := [], avg := 0, min := 0, max := 0 } }

/-- `fps.rs`: `Fps::sample` with the measured delta (`now - last`) passed in
explicitly: push the delta, pop from the front while the window exceeds
`window_len`, then recompute the three published rates. -/
def Fps.sample (f : Fps) (delta : ℚ) : Fps :=
  let pushed := f.inner.window ++ [delta]
  let window := pushed.drop (pushed.length - f.window_len)
  let inner1 : Inner := { f.inner with window := window }
  { f with
      inner :=
        { inner1 with
            avg := inner1.calc_avg
            min := inner1.calc_min
            max := inner1.calc_max } }

/-- `fps.rs`: `Fps::avg`. -/
def Fps.avg (f : Fps) : ℚ := f.inner.avg

/-- `fps.rs`: `Fps::min`. -/
def Fps.min (f : Fps) : ℚ := f.inner.min

/-- `fps.rs`: `Fps::max`. -/
def Fps.max (f : Fps) : ℚ := f.inner.max

/-- `fps.rs`: `impl Default for Fps`. -/
def Fps.default : Fps := Fps.with_window_len Fps.DEFAULT_WINDOW_LEN

/-- `serial.rs`: `struct FrameHz`, the f64 rates as rationals. -/
structure FrameHz where
  avg : ℚ
  min : ℚ
  max : ℚ
  deriving DecidableEq

/-- `vis.rs`: `struct Cbm8032Frame`. -/
structure Cbm8032Frame where
  mode : Cbm8032FrameMode
  data : List Nat
  deriving DecidableEq

/-- `serial.rs`: `struct Handle`, reduced to the parts `try_recv_frame` and
`frame_hz` touch: the mpsc receiver is modelled as the list of queued
`(frame, hz)` messages, oldest first, and the `RefCell<FrameHz>` cache as a
plain field.  `is_closed`, the join handle and the port info play no part in
these two methods. -/
structure Handle where
  rx : List (Cbm8032Frame × FrameHz)
  last_recorded_frame_hz : FrameHz
  deriving DecidableEq

/-- `serial.rs`: `Handle::try_recv_frame`: `self.rx.try_iter().last()` drains
every buffered message and yields the newest one, if any; on `Some` the rate
cache is overwritten and the frame returned.  The result pairs the returned
value with the post-call handle. -/
def Handle.try_recv_frame (h : Handle) : Option Cbm8032Frame × Handle :=
  match h.rx.getLast? with
  | some (frame, hz) => (some frame, { rx := [], last_recorded_frame_hz := hz })
  | none => (none, { h with rx := [] })

/-- `serial.rs`: `Handle::frame_hz`: returns the cached rate sample. -/
def Handle.frame_hz (h : Handle) : FrameHz := h.last_recorded_frame_hz

/-! ### Helper lemmas about the synchronizer -/

/-- `handle_received_buffer` only writes `screen_buffer` or `graphic`. -/
theorem handle_received_buffer_bufnum (ctx : ReceiverContext) :
    (handle_received_buffer ctx).bufnum = ctx.bufnum := by
  simp only [handle_received_buffer]
  split
  · split <;> rfl
  · rfl

theorem handle_received_buffer_state (ctx : ReceiverContext) :
    (handle_received_buffer ctx).state = ctx.state := by
  simp only [handle_received_buffer]
  split
  · split <;> rfl
  · rfl

theorem handle_received_buffer_count (ctx : ReceiverContext) :
    (handle_received_buffer ctx).count = ctx.count := by
  simp only [handle_received_buffer]
  split
  · split <;> rfl
  · rfl

theorem handle_received_buffer_buffer (ctx : ReceiverContext) :
    (handle_received_buffer ctx).buffer = ctx.buffer := by
  simp only [handle_received_buffer]
  split
  · split <;> rfl
  · rfl

/-- Branch equation: a zero byte while counting, below the threshold. -/
theorem step_zero_count (ctx : ReceiverContext) (hs : ctx.state = State.CountingZeros)
    (h : ¬ ctx.count + 1 = 41) :
    handle_received_byte ctx 0 = ({ ctx with count := ctx.count + 1 }, false) := by
  obtain ⟨st, bn, cnt, buf, scr, g⟩ := ctx
  simp only at hs
  subst hs
  simp [handle_received_byte, h]

/-- Branch equation: the zero byte that completes the 41-byte zero run. -/
theorem step_zero_sync (ctx : ReceiverContext) (hs : ctx.state = State.CountingZeros)
    (h : ctx.count + 1 = 41) :
    handle_received_byte ctx 0 =
      ({ ctx with state := State.InSync, bufnum := 1, count := 0 }, false) := by
  obtain ⟨st, bn, cnt, buf, scr, g⟩ := ctx
  simp only at hs
  subst hs
  simp only at h
  simp [handle_received_byte, h]

/-- Branch equation: a non-zero byte while counting resets the counter. -/
theorem step_nonzero_count (ctx : ReceiverContext) (byte : Nat)
    (hs : ctx.state = State.CountingZeros) (h : byte ≠ 0) :
    handle_received_byte ctx byte = ({ ctx with count := 0 }, false) := by
  obtain ⟨st, bn, cnt, buf, scr, g⟩ := ctx
  simp only at hs
  subst hs
  simp [handle_received_byte, h]

/-- Branch equation: staging a byte while in sync with room in the buffer. -/
theorem step_stage (ctx : ReceiverContext) (byte : Nat)
    (hs : ctx.state = State.InSync) (h : ctx.count < 40) :
    handle_received_byte ctx byte =
      ({ ctx with buffer := ctx.buffer.set ctx.count byte,
                  count := ctx.count + 1 }, false) := by
  obtain ⟨st, bn, cnt, buf, scr, g⟩ := ctx
  simp only at hs
  subst hs
  simp [handle_received_byte, h]

/-- Branch equation: accepting a matching sequence byte for a data sub-buffer. -/
theorem step_accept_mid (ctx : ReceiverContext) (byte : Nat)
    (hs : ctx.state = State.InSync) (hc : ¬ ctx.count < 40)
    (hb : byte = ctx.bufnum % 256) (hn : ¬ ctx.bufnum = 51) :
    handle_received_byte ctx byte =
      ({ handle_received_buffer ctx with bufnum := ctx.bufnum + 1, count := 0 }, false) := by
  obtain ⟨st, bn, cnt, buf, scr, g⟩ := ctx
  simp only at hs hc hb hn
  subst hs
  have hb52 : ¬ (handle_received_buffer
      ⟨State.InSync, bn, cnt, buf, scr, g⟩).bufnum + 1 = 52 := by
    rw [handle_received_buffer_bufnum]
    simp only
    omega
  simp only [handle_received_byte, if_neg hc, if_pos hb, if_neg hb52]
  rw [handle_received_buffer_bufnum]

/-- Branch equation: accepting the sequence byte of the final (mode) sub-buffer
reports the completion and returns to zero counting. -/
theorem step_accept_last (ctx : ReceiverContext) (byte : Nat)
    (hs : ctx.state = State.InSync) (hc : ¬ ctx.count < 40)
    (hb : byte = ctx.bufnum % 256) (hn : ctx.bufnum = 51) :
    handle_received_byte ctx byte =
      ({ handle_received_buffer ctx with
          bufnum := 52, count := 0, state := State.CountingZeros }, true) := by
  obtain ⟨st, bn, cnt, buf, scr, g⟩ := ctx
  simp only at hs hc hb hn
  subst hs; subst hn
  have hb52 : (handle_received_buffer
      ⟨State.InSync, 51, cnt, buf, scr, g⟩).bufnum + 1 = 52 := by
    rw [handle_received_buffer_bufnum]
  simp only [handle_received_byte, if_neg hc, if_pos hb, if_pos hb52]
  rw [handle_received_buffer_bufnum]

/-- Branch equation: a mismatched sequence byte loses synchronization. -/
theorem step_loss (ctx : ReceiverContext) (byte : Nat)
    (hs : ctx.state = State.InSync) (hc : ¬ ctx.count < 40)
    (hb : ¬ byte = ctx.bufnum % 256) :
    handle_received_byte ctx byte =
      ({ ctx with state := State.CountingZeros, count := 0 }, false) := by
  obtain ⟨st, bn, cnt, buf, scr, g⟩ := ctx
  simp only at hs hc hb
  subst hs
  simp [handle_received_byte, hc, hb]

theorem run_frames_nil (ctx : ReceiverContext) : run_frames ctx [] = (ctx, []) := rfl

/-- Unfolding one step of the receiver loop when the byte does not complete
a frame. -/
theorem run_frames_cons_false (ctx c : ReceiverContext) (b : Nat) (bs : List Nat)
    (h : handle_received_byte ctx b = (c, false)) :
    run_frames ctx (b :: bs) = run_frames c bs := by
  simp [run_frames, h]

/-- Unfolding one step of the receiver loop when the byte completes a frame:
the loop records `(graphic, screen_buffer)` of the post-step context. -/
theorem run_frames_cons_true (ctx c : ReceiverContext) (b : Nat) (bs : List Nat)
    (h : handle_received_byte ctx b = (c, true)) :
    run_frames ctx (b :: bs) =
      ((run_frames c bs).1, (c.graphic, c.screen_buffer) :: (run_frames c bs).2) := by
  simp [run_frames, h]

theorem run_frames_append (a b : List Nat) (ctx : ReceiverContext) :
    run_frames ctx (a ++ b) =
      ((run_frames (run_frames ctx a).1 b).1,
        (run_frames ctx a).2 ++ (run_frames (run_frames ctx a).1 b).2) := by
  induction a generalizing ctx with
  | nil => simp [run_frames]
  | cons x xs ih => simp [run_frames, ih, List.append_assoc]

/-- While zero bytes arrive and the zero counter stays below the threshold,
`CountingZeros` just counts them. -/
theorem zero_run_partial (n : Nat) (ctx : ReceiverContext)
    (hs : ctx.state = State.CountingZeros) (h : ctx.count + n ≤ 40) :
    run_frames ctx (List.replicate n 0) =
      ({ ctx with count := ctx.count + n }, []) := by
  induction n generalizing ctx with
  | zero => simp [run_frames]
  | succ n ih =>
    rw [List.replicate_succ]
    rw [run_frames_cons_false ctx _ 0 _ (step_zero_count ctx hs (by omega))]
    rw [ih { ctx with count := ctx.count + 1 } hs (by simp; omega)]
    simp; omega

/-- A zero run that brings the counter to 41 moves the synchronizer to
`InSync` with `bufnum = 1` and `count = 0`. -/
theorem zero_run_sync (n : Nat) (ctx : ReceiverContext)
    (hs : ctx.state = State.CountingZeros) (h : ctx.count + n = 41) (hn : 1 ≤ n) :
    run_frames ctx (List.replicate n 0) =
      ({ ctx with state := State.InSync, bufnum := 1, count := 0 }, []) := by
  obtain ⟨m, rfl⟩ : ∃ m, n = m + 1 := ⟨n - 1, by omega⟩
  rw [List.replicate_succ']
  rw [run_frames_append, zero_run_partial m ctx hs (by omega)]
  have hstep := step_zero_sync { ctx with count := ctx.count + m }
    (by simpa using hs) (by simp; omega)
  simp [run_frames, hstep]

theorem write_from_length (p : List Nat) (c : Nat) (b : List Nat) :
    (write_from c p b).length = b.length := by
  induction p generalizing c b with
  | nil => rfl
  | cons x xs ih => simp [write_from, ih]

theorem set_take_succ (b : List Nat) (c : Nat) (x : Nat) (h : c < b.length) :
    (b.set c x).take (c + 1) = b.take c ++ [x] := by
  rw [List.set_eq_take_cons_drop x h]
  rw [List.take_append_eq_append_take]
  have h1 : (List.take c b).length = c := List.length_take_of_le (by omega)
  simp [h1, List.take_of_length_le]

theorem write_from_full (p : List Nat) (c : Nat) (b : List Nat)
    (h : c + p.length = b.length) :
    write_from c p b = b.take c ++ p := by
  induction p generalizing c b with
  | nil => simp at h; simp [write_from, h]
  | cons x xs ih =>
    simp only [write_from]
    rw [ih (c + 1) (b.set c x) (by simp at h ⊢; omega)]
    rw [set_take_succ b c x (by simp at h; omega)]
    simp

/-- While the staging buffer has room (`count < 40`), incoming bytes are
written into it at consecutive indices and the counter advances; nothing
else changes and no completion is reported. -/
theorem in_sync_staging (p : List Nat) (ctx : ReceiverContext)
    (hs : ctx.state = State.InSync) (h : ctx.count + p.length ≤ 40) :
    run_frames ctx p =
      ({ ctx with count := ctx.count + p.length,
                  buffer := write_from ctx.count p ctx.buffer }, []) := by
  induction p generalizing ctx with
  | nil => simp [run_frames, write_from]
  | cons x xs ih =>
    have hlt : ctx.count < 40 := by simp at h; omega
    rw [run_frames_cons_false ctx _ x _ (step_stage ctx x hs hlt)]
    rw [ih { ctx with buffer := ctx.buffer.set ctx.count x, count := ctx.count + 1 }
      hs (by simp at h ⊢; omega)]
    simp [write_from]; omega

/-- `handle_received_buffer` on a data sub-buffer number copies the staging
buffer into the matching screen slice. -/
theorem handle_received_buffer_data (ctx : ReceiverContext) (k : Nat)
    (hb : ctx.bufnum = k) (hk1 : 1 ≤ k) (hk2 : k ≤ 50) :
    handle_received_buffer ctx =
      { ctx with
          screen_buffer := ctx.screen_buffer.take ((k - 1) * 40) ++ ctx.buffer
            ++ ctx.screen_buffer.drop ((k - 1) * 40 + 40) } := by
  subst hb
  have h1 : 0 < ctx.bufnum := hk1
  have h2 : ctx.bufnum < TOTAL_BUFFERS_PER_FRAME := by
    simp only [TOTAL_BUFFERS_PER_FRAME]; omega
  simp [handle_received_buffer, h1, h2, DATA_PER_BUFFER]

/-- `handle_received_buffer` on the mode sub-buffer number reads the display
mode from the first staged byte. -/
theorem handle_received_buffer_mode (ctx : ReceiverContext) (hb : ctx.bufnum = 51) :
    handle_received_buffer ctx =
      { ctx with graphic := byte_to_mode (ctx.buffer.getD 0 0) } := by
  have h1 : 0 < ctx.bufnum := by omega
  have h2 : ¬ ctx.bufnum < TOTAL_BUFFERS_PER_FRAME := by
    simp only [TOTAL_BUFFERS_PER_FRAME]; omega
  simp [handle_received_buffer, h1, h2]

/-- Feeding one complete data sub-buffer — 40 payload bytes, then the
matching sequence byte `k` — copies the payload into screen slice `k - 1`
and advances the expected buffer number, with no completion reported. -/
theorem sub_buffer_accept (p : List Nat) (k : Nat) (ctx : ReceiverContext)
    (hs : ctx.state = State.InSync) (hc : ctx.count = 0) (hb : ctx.bufnum = k)
    (hk1 : 1 ≤ k) (hk2 : k ≤ 50) (hp : p.length = 40) (hbuf : ctx.buffer.length = 40) :
    run_frames ctx (p ++ [k]) =
      ({ ctx with
          buffer := p
          bufnum := k + 1
          count := 0
          screen_buffer := ctx.screen_buffer.take ((k - 1) * 40) ++ p
            ++ ctx.screen_buffer.drop ((k - 1) * 40 + 40) }, []) := by
  have hstage := in_sync_staging p ctx hs (by omega)
  rw [hc] at hstage
  have hwf : write_from 0 p ctx.buffer = p := by
    rw [write_from_full p 0 ctx.buffer (by omega)]
    simp
  rw [hwf, hp, Nat.zero_add] at hstage
  have hstep := step_accept_mid { ctx with count := 40, buffer := p }
    k (by simpa using hs) (by simp)
    (by simp [hb, Nat.mod_eq_of_lt (show k < 256 by omega)])
    (by simp [hb]; omega)
  rw [handle_received_buffer_data _ k (by simpa using hb) hk1 hk2] at hstep
  rw [hb] at hstep hstage
  rw [run_frames_append, hstage]
  simp [run_frames, hstep]

/-- Running a train of correctly numbered data sub-buffers writes their
payloads to consecutive screen slices and advances `bufnum` accordingly. -/
theorem data_buffers_run (ps : List (List Nat)) (j : Nat) (ctx : ReceiverContext)
    (hs : ctx.state = State.InSync) (hc : ctx.count = 0) (hb : ctx.bufnum = j)
    (hj : 1 ≤ j) (hlen : j + ps.length ≤ 51)
    (hps : ∀ p ∈ ps, p.length = 40) (hbuf : ctx.buffer.length = 40)
    (hscr : ctx.screen_buffer.length = 2000) :
    ∃ b' : List Nat, b'.length = 40 ∧
      run_frames ctx (sub_buffers_from j ps) =
        ({ ctx with
            bufnum := j + ps.length
            buffer := b'
            screen_buffer := ctx.screen_buffer.take ((j - 1) * 40) ++ ps.flatten
              ++ ctx.screen_buffer.drop ((j - 1) * 40 + 40 * ps.length) }, []) := by
  induction ps generalizing j ctx with
  | nil =>
    refine ⟨ctx.buffer, hbuf, ?_⟩
    rw [show sub_buffers_from j [] = [] from rfl, run_frames_nil]
    simp [← hb]
  | cons p rest ih =>
    have hp : p.length = 40 := hps p (by simp)
    have hj50 : j ≤ 50 := by simp at hlen; omega
    have hacc := sub_buffer_accept p j ctx hs hc hb hj hj50 hp hbuf
    rw [show sub_buffers_from j (p :: rest) = (p ++ [j]) ++ sub_buffers_from (j + 1) rest
      from rfl, run_frames_append, hacc]
    have hAlen : (ctx.screen_buffer.take ((j - 1) * 40)).length = (j - 1) * 40 :=
      List.length_take_of_le (by omega)
    obtain ⟨b', hb'len, hrun⟩ := ih (j + 1)
      { ctx with
          buffer := p
          bufnum := j + 1
          count := 0
          screen_buffer := ctx.screen_buffer.take ((j - 1) * 40) ++ p
            ++ ctx.screen_buffer.drop ((j - 1) * 40 + 40) }
      (by simpa using hs) rfl rfl (by omega) (by simp at hlen ⊢; omega)
      (fun q hq => hps q (by simp [hq])) (by simpa using hp)
      (by simp [hAlen, hp, hscr]; omega)
    refine ⟨b', hb'len, ?_⟩
    rw [hrun]
    have htake : ((ctx.screen_buffer.take ((j - 1) * 40) ++ p)
        ++ ctx.screen_buffer.drop ((j - 1) * 40 + 40)).take (j * 40)
        = ctx.screen_buffer.take ((j - 1) * 40) ++ p :=
      List.take_left' (by simp [hAlen, hp]; omega)
    have hdrop : ((ctx.screen_buffer.take ((j - 1) * 40) ++ p)
        ++ ctx.screen_buffer.drop ((j - 1) * 40 + 40)).drop (j * 40 + 40 * rest.length)
        = ctx.screen_buffer.drop ((j - 1) * 40 + 40 * (rest.length + 1)) := by
      have h1 : (ctx.screen_buffer.take ((j - 1) * 40) ++ p).length = j * 40 := by
        simp [hAlen, hp]; omega
      rw [show j * 40 + 40 * rest.length
          = (ctx.screen_buffer.take ((j - 1) * 40) ++ p).length + 40 * rest.length
        from by rw [h1], List.drop_append, List.drop_drop]
      congr 1
      omega
    simp only [List.append_assoc] at htake hdrop ⊢
    simp [htake, hdrop]
    omega

/-- Feeding the mode sub-buffer — 40 payload bytes, then sequence byte 51 —
when `bufnum = 51`: the display mode is taken from the first payload byte,
the completion is reported and the loop records the finished frame. -/
theorem mode_buffer_run (m : List Nat) (ctx : ReceiverContext)
    (hs : ctx.state = State.InSync) (hc : ctx.count = 0) (hb : ctx.bufnum = 51)
    (hm : m.length = 40) (hbuf : ctx.buffer.length = 40) :
    run_frames ctx (m ++ [51]) =
      ({ ctx with
          state := State.CountingZeros
          bufnum := 52
          count := 0
          buffer := m
          graphic := byte_to_mode (m.getD 0 0) },
        [(byte_to_mode (m.getD 0 0), ctx.screen_buffer)]) := by
  have hstage := in_sync_staging m ctx hs (by omega)
  rw [hc] at hstage
  have hwf : write_from 0 m ctx.buffer = m := by
    rw [write_from_full m 0 ctx.buffer (by omega)]
    simp
  rw [hwf, hm, Nat.zero_add] at hstage
  have hstep := step_accept_last { ctx with count := 40, buffer := m }
    51 (by simpa using hs) (by simp) (by simp [hb]) (by simpa using hb)
  rw [handle_received_buffer_mode _ (by simpa using hb)] at hstep
  rw [hb] at hstep hstage
  rw [run_frames_append, hstage]
  simp [run_frames, hstep]

/-- Master lemma: from any zero-counting context with counter 0 (and
well-sized buffers), one complete frame stream produces exactly the one
expected frame and leaves the synchronizer back in zero counting. -/
theorem frame_stream_run (ps : List (List Nat)) (m : List Nat) (ctx : ReceiverContext)
    (hs : ctx.state = State.CountingZeros) (hc : ctx.count = 0)
    (hps : ps.length = 50) (hpe : ∀ p ∈ ps, p.length = 40) (hm : m.length = 40)
    (hbuf : ctx.buffer.length = 40) (hscr : ctx.screen_buffer.length = 2000) :
    run_frames ctx (frame_stream ps m) =
      ({ ctx with
          state := State.CountingZeros
          bufnum := 52
          count := 0
          buffer := m
          graphic := byte_to_mode (m.getD 0 0)
          screen_buffer := ps.flatten },
        [(byte_to_mode (m.getD 0 0), ps.flatten)]) := by
  have hzero := zero_run_sync 41 ctx hs (by omega) (by omega)
  obtain ⟨b', hb'len, hdata⟩ := data_buffers_run ps 1
    { ctx with state := State.InSync, bufnum := 1, count := 0 }
    rfl rfl rfl (by omega) (by omega) hpe (by simpa using hbuf) (by simpa using hscr)
  dsimp only at hdata
  have hsflat : List.take ((1 - 1) * 40) ctx.screen_buffer ++ ps.flatten
      ++ List.drop ((1 - 1) * 40 + 40 * ps.length) ctx.screen_buffer = ps.flatten := by
    rw [hps]
    simp [List.drop_of_length_le, hscr]
  rw [hsflat] at hdata
  have hmode := mode_buffer_run m
    ⟨State.InSync, 1 + ps.length, 0, b', ps.flatten, ctx.graphic⟩
    rfl rfl (by simp [hps]) hm hb'len
  dsimp only at hmode
  rw [frame_stream,
    run_frames_append (List.replicate 41 0 ++ sub_buffers_from 1 ps) (m ++ [51]) ctx,
    run_frames_append (List.replicate 41 0) (sub_buffers_from 1 ps) ctx, hzero]
  dsimp only
  rw [hdata]
  dsimp only
  rw [hmode]
  simp

/-- A non-empty run of non-zero bytes while counting zeroes leaves the state
machine where it was, with the zero counter at 0 and no completion. -/
theorem nonzero_run (bs : List Nat) (ctx : ReceiverContext)
    (hs : ctx.state = State.CountingZeros) (hne : bs ≠ [])
    (hnz : ∀ b ∈ bs, b ≠ 0) :
    run_frames ctx bs = ({ ctx with count := 0 }, []) := by
  induction bs generalizing ctx with
  | nil => exact absurd rfl hne
  | cons b rest ih =>
    have hstep := step_nonzero_count ctx b hs (hnz b (by simp))
    rw [run_frames_cons_false ctx _ b rest hstep]
    cases rest with
    | nil => simp [run_frames]
    | cons c cs =>
      rw [ih { ctx with count := 0 } hs (by simp) (fun x hx => hnz x (by simp [hx]))]

/-! ### Claims -/

/-- **C1** (confirmed): for every byte stream of the form
[zero run of one sub-buffer width (41 bytes)][sub-buffer 1]…[sub-buffer 50]
[mode sub-buffer], fed byte-by-byte from the initial zero-counting state,
exactly one frame completion is reported; the frame's data is the in-order
concatenation of the 50 data payloads, and its mode is the one selected by
the mode sub-buffer's first payload byte. -/
theorem C1_frame_reconstruction (ps : List (List Nat)) (m : List Nat)
    (hps : ps.length = 50) (hpe : ∀ p ∈ ps, p.length = 40) (hm : m.length = 40) :
    (run_frames init_receiver_context (frame_stream ps m)).2 =
      [(byte_to_mode (m.getD 0 0), ps.flatten)] := by
  rw [frame_stream_run ps m init_receiver_context rfl rfl hps hpe hm
    (by simp [init_receiver_context])
    (by norm_num [init_receiver_context, CBM_8032_FRAME_DATA_LEN])]

/-- Witness for C1 at a concrete stream: fifty payloads of forty 1-bytes and
a mode payload starting with 1 yield exactly one Text frame of 2000 1-bytes. -/
theorem C1_witness :
    (run_frames init_receiver_context
        (frame_stream (List.replicate 50 (List.replicate 40 1))
          (List.replicate 40 1))).2 =
      [(Cbm8032FrameMode.Text, List.replicate 2000 1)] := by
  rw [C1_frame_reconstruction (List.replicate 50 (List.replicate 40 1))
    (List.replicate 40 1) (by decide) (by decide) (by decide)]
  norm_num [byte_to_mode]

/-- **C2** (amended): in the zero-counting state each zero byte increments
the counter and any non-zero byte resets it to 0; the transition to
`InSync` (setting the expected buffer number to 1 and the counter to 0)
happens exactly when the consecutive-zero count reaches 41 — one full
sub-buffer width (1 sequence byte + 40 data bytes) — not at the 40-byte
data width the claim states. -/
theorem C2_sync_threshold (ctx : ReceiverContext) (byte : Nat)
    (hs : ctx.state = State.CountingZeros) :
    (byte = 0 → ctx.count + 1 = 41 →
      handle_received_byte ctx byte =
        ({ ctx with state := State.InSync, bufnum := 1, count := 0 }, false)) ∧
    (byte = 0 → ¬ ctx.count + 1 = 41 →
      handle_received_byte ctx byte = ({ ctx with count := ctx.count + 1 }, false)) ∧
    (byte ≠ 0 →
      handle_received_byte ctx byte = ({ ctx with count := 0 }, false)) := by
  refine ⟨?_, ?_, ?_⟩
  · rintro rfl h
    exact step_zero_sync ctx hs h
  · rintro rfl h
    exact step_zero_count ctx hs h
  · intro h
    exact step_nonzero_count ctx byte hs h

/-- Counterexample to C2 as stated: forty consecutive zero bytes — the data
width of one sub-buffer, at which the claim says the transition happens —
leave the synchronizer still in `CountingZeros` with count 40; only the
41st zero moves it to `InSync`. -/
theorem C2_counterexample :
    (run_frames init_receiver_context (List.replicate 40 0)).1.state
        = State.CountingZeros ∧
      (run_frames init_receiver_context (List.replicate 40 0)).1.count = 40 ∧
      (run_frames init_receiver_context (List.replicate 41 0)).1.state
        = State.InSync := by
  decide

/-- Witness for C2 at a concrete input: one zero byte from the initial state
advances the counter to 1. -/
theorem C2_witness :
    handle_received_byte init_receiver_context 0 =
      ({ init_receiver_context with count := 1 }, false) := by
  have h := (C2_sync_threshold init_receiver_context 0 rfl).2.1 rfl (by decide)
  simpa [init_receiver_context] using h

/-- **C3** (amended): in the in-sync state a sub-buffer is 40 payload bytes
followed by one sequence byte.  The payload bytes are accumulated into the
40-byte staging buffer (not a 41-byte one), and the byte arriving once that
buffer is full — the last byte of the 41-byte group, not its first — is the
one interpreted as the sub-buffer sequence number, the staged 40 bytes
being the data payload. -/
theorem C3_payload_then_sequence (ctx : ReceiverContext) (p : List Nat) (s : Nat)
    (hs : ctx.state = State.InSync) (hc : ctx.count = 0)
    (hp : p.length = 40) (hbuf : ctx.buffer.length = 40)
    (hb1 : 1 ≤ ctx.bufnum) (hb50 : ctx.bufnum ≤ 50) :
    (s = ctx.bufnum →
      run_frames ctx (p ++ [s]) =
        ({ ctx with
            buffer := p
            bufnum := ctx.bufnum + 1
            count := 0
            screen_buffer := ctx.screen_buffer.take ((ctx.bufnum - 1) * 40) ++ p
              ++ ctx.screen_buffer.drop ((ctx.bufnum - 1) * 40 + 40) }, [])) ∧
    (¬ s = ctx.bufnum % 256 →
      run_frames ctx (p ++ [s]) =
        ({ ctx with buffer := p, count := 0, state := State.CountingZeros }, [])) := by
  constructor
  · rintro rfl
    exact sub_buffer_accept p ctx.bufnum ctx hs hc rfl hb1 hb50 hp hbuf
  · intro hne
    have hstage := in_sync_staging p ctx hs (by omega)
    rw [hc] at hstage
    have hwf : write_from 0 p ctx.buffer = p := by
      rw [write_from_full p 0 ctx.buffer (by omega)]
      simp
    rw [hwf, hp, Nat.zero_add] at hstage
    have hstep := step_loss { ctx with count := 40, buffer := p } s
      (by simpa using hs) (by simp) (by simpa using hne)
    rw [run_frames_append, hstage]
    simp [run_frames, hstep]

/-- Counterexample to C3 as stated: after the sync preamble, feed a 41-byte
group whose first byte is 5 and whose last byte is 1.  Were the first byte
of a full staging group the sequence number, 5 ≠ 1 (the expected number)
would lose synchronization; instead the code accepts the group — the
trailing 1 is what is compared — staying `InSync` with `bufnum = 2`, and
the leading 5 lands in the frame data at index 0 as payload. -/
theorem C3_counterexample :
    (run_frames init_receiver_context
        (List.replicate 41 0 ++ [5] ++ List.replicate 39 0 ++ [1])).1.state
        = State.InSync ∧
      (run_frames init_receiver_context
        (List.replicate 41 0 ++ [5] ++ List.replicate 39 0 ++ [1])).1.bufnum = 2 ∧
      (run_frames init_receiver_context
        (List.replicate 41 0 ++ [5] ++ List.replicate 39 0
          ++ [1])).1.screen_buffer.getD 0 0 = 5 ∧
      (5 : Nat) ≠ 1 := by
  decide

/-- Witness for C3 at a concrete input: an in-sync context expecting buffer 1
accepts forty 7-bytes followed by sequence byte 1. -/
theorem C3_witness :
    run_frames
        ⟨State.InSync, 1, 0, List.replicate 40 0, List.replicate 2000 0,
          Cbm8032FrameMode.Graphics⟩
        (List.replicate 40 7 ++ [1]) =
      (⟨State.InSync, 2, 0, List.replicate 40 7,
          List.replicate 40 7 ++ List.replicate 1960 0,
          Cbm8032FrameMode.Graphics⟩, []) := by
  have h := (C3_payload_then_sequence
    ⟨State.InSync, 1, 0, List.replicate 40 0, List.replicate 2000 0,
      Cbm8032FrameMode.Graphics⟩
    (List.replicate 40 7) 1 rfl rfl (by decide) (by decide) (by decide) (by decide)).1 rfl
  rw [h]
  norm_num

/-- **C5** (confirmed): a full staging buffer whose arriving sequence byte
differs from the expected buffer number yields no completion and an
immediate transition back to zero counting with count 0 (and `bufnum` left
untouched); from that state, a subsequent well-formed zero run followed by
a full sub-buffer sequence again produces exactly the one correct frame. -/
theorem C5_sync_loss_recovery (ctx : ReceiverContext) (byte : Nat)
    (ps : List (List Nat)) (m : List Nat)
    (hs : ctx.state = State.InSync) (hc : ¬ ctx.count < 40)
    (hb : ¬ byte = ctx.bufnum % 256)
    (hps : ps.length = 50) (hpe : ∀ p ∈ ps, p.length = 40) (hm : m.length = 40)
    (hbuf : ctx.buffer.length = 40) (hscr : ctx.screen_buffer.length = 2000) :
    handle_received_byte ctx byte =
        ({ ctx with state := State.CountingZeros, count := 0 }, false) ∧
      (run_frames { ctx with state := State.CountingZeros, count := 0 }
          (frame_stream ps m)).2 =
        [(byte_to_mode (m.getD 0 0), ps.flatten)] := by
  refine ⟨step_loss ctx byte hs hc hb, ?_⟩
  rw [frame_stream_run ps m _ rfl rfl hps hpe hm (by simpa using hbuf)
    (by simpa using hscr)]

/-- Witness for C5 at a concrete input: in sync expecting buffer 3 with a
full staging buffer, sequence byte 9 loses sync without a completion, and a
fresh well-formed stream from that state yields one Graphics frame. -/
theorem C5_witness :
    handle_received_byte
        ⟨State.InSync, 3, 40, List.replicate 40 0, List.replicate 2000 0,
          Cbm8032FrameMode.Graphics⟩ 9 =
      (⟨State.CountingZeros, 3, 0, List.replicate 40 0, List.replicate 2000 0,
          Cbm8032FrameMode.Graphics⟩, false) ∧
    (run_frames
        ⟨State.CountingZeros, 3, 0, List.replicate 40 0, List.replicate 2000 0,
          Cbm8032FrameMode.Graphics⟩
        (frame_stream (List.replicate 50 (List.replicate 40 2))
          (List.replicate 40 0))).2 =
      [(Cbm8032FrameMode.Graphics, List.replicate 2000 2)] := by
  have h := C5_sync_loss_recovery
    ⟨State.InSync, 3, 40, List.replicate 40 0, List.replicate 2000 0,
      Cbm8032FrameMode.Graphics⟩ 9
    (List.replicate 50 (List.replicate 40 2)) (List.replicate 40 0)
    rfl (by decide) (by decide) (by simp) (by simp [List.mem_replicate])
    (by simp) (by simp) (by simp)
  refine ⟨h.1, ?_⟩
  have h2 := h.2
  norm_num [byte_to_mode] at h2
  exact h2

/-- After one complete frame plus a duplicate end-marker sub-buffer (40
zero-padding bytes then sequence byte 51), the run yields exactly the one
frame and ends back in zero counting with count 0 and `bufnum` still 52. -/
theorem padding_after_frame (ps : List (List Nat)) (m : List Nat)
    (hps : ps.length = 50) (hpe : ∀ p ∈ ps, p.length = 40) (hm : m.length = 40) :
    run_frames init_receiver_context
        (frame_stream ps m ++ (List.replicate 40 0 ++ [51])) =
      (⟨State.CountingZeros, 52, 0, m, ps.flatten, byte_to_mode (m.getD 0 0)⟩,
        [(byte_to_mode (m.getD 0 0), ps.flatten)]) := by
  have hframe := frame_stream_run ps m init_receiver_context rfl rfl hps hpe hm
    (by simp [init_receiver_context])
    (by norm_num [init_receiver_context, CBM_8032_FRAME_DATA_LEN])
  have hz := zero_run_partial 40
    ⟨State.CountingZeros, 52, 0, m, ps.flatten, byte_to_mode (m.getD 0 0)⟩
    rfl (by simp)
  simp only [Nat.zero_add] at hz
  have hnz := step_nonzero_count
    ⟨State.CountingZeros, 52, 40, m, ps.flatten, byte_to_mode (m.getD 0 0)⟩
    51 rfl (by decide)
  rw [run_frames_append, hframe, run_frames_append, hz,
    run_frames_cons_false _ _ 51 [] hnz, run_frames_nil]
  simp

/-- **C6** (amended): the code keeps no record of the previous sequence
number; instead, accepting the end-of-frame (mode) sub-buffer itself
reports the single completion and immediately returns the synchronizer to
zero counting with the zero counter at 0 — the expected buffer number is
left at 52, it is not reset to 0.  A following duplicate end-marker
sub-buffer (inter-frame zero padding and sequence byte 51) is consumed by
the zero scanner: no second completion is ever reported. -/
theorem C6_no_double_completion (ps : List (List Nat)) (m : List Nat)
    (hps : ps.length = 50) (hpe : ∀ p ∈ ps, p.length = 40) (hm : m.length = 40) :
    (run_frames init_receiver_context
        (frame_stream ps m ++ (List.replicate 40 0 ++ [51]))).2 =
        [(byte_to_mode (m.getD 0 0), ps.flatten)] ∧
      (run_frames init_receiver_context
        (frame_stream ps m ++ (List.replicate 40 0 ++ [51]))).1.state
        = State.CountingZeros ∧
      (run_frames init_receiver_context
        (frame_stream ps m ++ (List.replicate 40 0 ++ [51]))).1.count = 0 ∧
      (run_frames init_receiver_context
        (frame_stream ps m ++ (List.replicate 40 0 ++ [51]))).1.bufnum = 52 := by
  rw [padding_after_frame ps m hps hpe hm]
  exact ⟨rfl, rfl, rfl, rfl⟩

/-- Counterexample to C6 as stated: after a complete concrete frame, a
duplicate end-marker sub-buffer arrives while the previous sequence number
was already the marker (51).  The claim says the synchronizer "resets the
expected counter to 0"; in the code the expected buffer number is 52
afterwards, not 0.  (No second completion is reported, as the single frame
in the output shows.) -/
theorem C6_counterexample :
    (run_frames init_receiver_context
        (frame_stream (List.replicate 50 (List.replicate 40 2))
            (List.replicate 40 3)
          ++ (List.replicate 40 0 ++ [51]))).2.length = 1 ∧
      (run_frames init_receiver_context
        (frame_stream (List.replicate 50 (List.replicate 40 2))
            (List.replicate 40 3)
          ++ (List.replicate 40 0 ++ [51]))).1.bufnum = 52 ∧
      (52 : Nat) ≠ 0 := by
  rw [padding_after_frame (List.replicate 50 (List.replicate 40 2))
    (List.replicate 40 3) (by decide) (by decide) (by decide)]
  exact ⟨rfl, rfl, by decide⟩

/-- Witness for C6 at a concrete input: one frame of 2-bytes with mode
byte 3, followed by the duplicate end-marker padding sub-buffer. -/
theorem C6_witness :
    (run_frames init_receiver_context
        (frame_stream (List.replicate 50 (List.replicate 40 2))
            (List.replicate 40 3)
          ++ (List.replicate 40 0 ++ [51]))).2 =
        [(byte_to_mode ((List.replicate 40 3).getD 0 0),
          (List.replicate 50 (List.replicate 40 2)).flatten)] ∧
      (run_frames init_receiver_context
        (frame_stream (List.replicate 50 (List.replicate 40 2))
            (List.replicate 40 3)
          ++ (List.replicate 40 0 ++ [51]))).1.count = 0 := by
  have h := C6_no_double_completion (List.replicate 50 (List.replicate 40 2))
    (List.replicate 40 3) (by decide) (by decide) (by decide)
  exact ⟨h.1, h.2.2.1⟩

/-- **C10** (confirmed): the display mode of a completed frame is determined
solely by the first payload byte of the mode sub-buffer: byte 0 selects
Graphics, every non-zero byte selects Text. -/
theorem C10_mode_mapping :
    byte_to_mode 0 = Cbm8032FrameMode.Graphics ∧
      (∀ b : Nat, b ≠ 0 → byte_to_mode b = Cbm8032FrameMode.Text) ∧
      (∀ ps m, ps.length = 50 → (∀ p ∈ ps, p.length = 40) → m.length = 40 →
        (run_frames init_receiver_context (frame_stream ps m)).2.map Prod.fst
          = [byte_to_mode (m.getD 0 0)]) := by
  refine ⟨rfl, ?_, ?_⟩
  · intro b hb
    cases b with
    | zero => exact absurd rfl hb
    | succ n => rfl
  · intro ps m hps hpe hm
    rw [frame_stream_run ps m init_receiver_context rfl rfl hps hpe hm
      (by simp [init_receiver_context])
      (by norm_num [init_receiver_context, CBM_8032_FRAME_DATA_LEN])]
    rfl

/-- Witness for C10 at concrete inputs: mode byte 0 gives Graphics, mode
byte 7 gives Text, and the concrete frame's recorded mode is the mapping of
its mode sub-buffer's first payload byte, 3. -/
theorem C10_witness :
    byte_to_mode 0 = Cbm8032FrameMode.Graphics ∧
      byte_to_mode 7 = Cbm8032FrameMode.Text ∧
      (run_frames init_receiver_context
          (frame_stream (List.replicate 50 (List.replicate 40 2))
            (List.replicate 40 3))).2.map Prod.fst
        = [byte_to_mode 3] := by
  obtain ⟨h0, hn, hf⟩ := C10_mode_mapping
  refine ⟨h0, hn 7 (by decide), ?_⟩
  have h := hf (List.replicate 50 (List.replicate 40 2)) (List.replicate 40 3)
    (by decide) (by decide) (by decide)
  simpa using h

theorem accumulated_cz (ctx : ReceiverContext)
    (hs : ctx.state = State.CountingZeros) : accumulated_frame_data ctx = [] := by
  obtain ⟨st, bn, cnt, buf, scr, g⟩ := ctx
  simp only at hs
  subst hs
  rfl

theorem accumulated_is (ctx : ReceiverContext) (hs : ctx.state = State.InSync) :
    accumulated_frame_data ctx
      = ctx.screen_buffer.take ((ctx.bufnum - 1) * DATA_PER_BUFFER) := by
  obtain ⟨st, bn, cnt, buf, scr, g⟩ := ctx
  simp only at hs
  subst hs
  rfl

/-- **C4** (confirmed through the abstraction `accumulated_frame_data`):
under the structural invariant, each byte step preserves the invariant; the
abstract accumulator never exceeds the frame length; it is empty right
after a completion is reported and right after synchronization is lost
(and only such steps can empty a non-empty accumulator, since every other
step extends it — the old contents stay as a prefix); and the data emitted
at a completion is exactly the accumulator the current episode had built,
so no bytes from a previous or aborted attempt can appear in an emitted
frame. -/
theorem C4_accumulator_invariant (ctx : ReceiverContext) (byte : Nat)
    (hinv : CtxInv ctx) :
    CtxInv (handle_received_byte ctx byte).1 ∧
      (accumulated_frame_data (handle_received_byte ctx byte).1).length
        ≤ CBM_8032_FRAME_DATA_LEN ∧
      ((handle_received_byte ctx byte).2 = true →
        accumulated_frame_data (handle_received_byte ctx byte).1 = [] ∧
          (handle_received_byte ctx byte).1.screen_buffer
            = accumulated_frame_data ctx) ∧
      (sync_loss ctx byte →
        accumulated_frame_data (handle_received_byte ctx byte).1 = [] ∧
          (handle_received_byte ctx byte).2 = false) ∧
      ((handle_received_byte ctx byte).2 = false → ¬ sync_loss ctx byte →
        ∃ t, accumulated_frame_data (handle_received_byte ctx byte).1
          = accumulated_frame_data ctx ++ t) := by
  obtain ⟨hbuf, hscr, hsync⟩ := hinv
  have h2000 : CBM_8032_FRAME_DATA_LEN = 2000 := rfl
  cases hst : ctx.state with
  | CountingZeros =>
    have hnl : ¬ sync_loss ctx byte := by
      intro hl
      rw [sync_loss, hst] at hl
      simp at hl
    have hacz := accumulated_cz ctx hst
    by_cases hbz : byte = 0
    · subst hbz
      by_cases h41 : ctx.count + 1 = 41
      · rw [step_zero_sync ctx hst h41]
        refine ⟨⟨by simpa using hbuf, by simpa using hscr, ?_⟩, ?_, ?_, ?_, ?_⟩
        · intro
          simp
        · rw [accumulated_is _ (by simp)]
          simp [h2000]
        · intro h
          exact absurd h (by simp)
        · intro hl
          exact absurd hl hnl
        · intro _ _
          rw [hacz]
          exact ⟨_, (List.nil_append _).symm⟩
      · rw [step_zero_count ctx hst h41]
        refine ⟨⟨by simpa using hbuf, by simpa using hscr, ?_⟩, ?_, ?_, ?_, ?_⟩
        · intro h
          simp only at h
          exact absurd (hst ▸ h) (by simp)
        · rw [accumulated_cz _ (by simpa using hst)]
          simp
        · intro h
          exact absurd h (by simp)
        · intro hl
          exact absurd hl hnl
        · intro _ _
          exact ⟨[], by rw [accumulated_cz _ (by simpa using hst), hacz]; rfl⟩
    · rw [step_nonzero_count ctx byte hst hbz]
      refine ⟨⟨by simpa using hbuf, by simpa using hscr, ?_⟩, ?_, ?_, ?_, ?_⟩
      · intro h
        simp only at h
        exact absurd (hst ▸ h) (by simp)
      · rw [accumulated_cz _ (by simpa using hst)]
        simp
      · intro h
        exact absurd h (by simp)
      · intro hl
        exact absurd hl hnl
      · intro _ _
        exact ⟨[], by rw [accumulated_cz _ (by simpa using hst), hacz]; rfl⟩
  | InSync =>
    obtain ⟨hb1, hb51, hcnt⟩ := hsync hst
    have hais := accumulated_is ctx hst
    by_cases hlt : ctx.count < 40
    · rw [step_stage ctx byte hst hlt]
      have hnl : ¬ sync_loss ctx byte := by
        intro hl
        exact absurd hlt hl.2.1
      refine ⟨⟨by simpa using hbuf, by simpa using hscr, ?_⟩, ?_, ?_, ?_, ?_⟩
      · intro
        refine ⟨by simpa using hb1, by simpa using hb51, by simp; omega⟩
      · rw [accumulated_is _ (by simpa using hst)]
        simp only [h2000]
        calc (List.take _ _).length ≤ ctx.screen_buffer.length :=
              List.length_take_le' _ _
          _ = 2000 := hscr
      · intro h
        exact absurd h (by simp)
      · intro hl
        exact absurd hl hnl
      · intro _ _
        exact ⟨[], by rw [accumulated_is _ (by simpa using hst), hais]; simp⟩
    · by_cases hmb : byte = ctx.bufnum % 256
      · by_cases h51 : ctx.bufnum = 51
        · rw [step_accept_last ctx byte hst hlt hmb h51]
          have hnl : ¬ sync_loss ctx byte := by
            intro hl
            exact absurd hmb hl.2.2
          have hmode := handle_received_buffer_mode ctx h51
          refine ⟨?_, ?_, ?_, ?_, ?_⟩
          · refine ⟨?_, ?_, ?_⟩
            · simpa [hmode] using hbuf
            · simpa [hmode] using hscr
            · intro h
              simp only at h
              exact absurd h (by simp)
          · rw [accumulated_cz _ (by simp)]
            simp
          · intro
            refine ⟨accumulated_cz _ (by simp), ?_⟩
            rw [hais, h51]
            simp only [hmode]
            rw [show (51 - 1) * DATA_PER_BUFFER = 2000 from rfl]
            rw [List.take_of_length_le (by omega)]
          · intro hl
            exact absurd hl hnl
          · intro h
            exact absurd h (by simp)
        · rw [step_accept_mid ctx byte hst hlt hmb h51]
          have hnl : ¬ sync_loss ctx byte := by
            intro hl
            exact absurd hmb hl.2.2
          have hdata := handle_received_buffer_data ctx ctx.bufnum rfl hb1 (by omega)
          have hAlen : (ctx.screen_buffer.take ((ctx.bufnum - 1) * 40)).length
              = (ctx.bufnum - 1) * 40 :=
            List.length_take_of_le (by omega)
          have htk : (ctx.screen_buffer.take ((ctx.bufnum - 1) * 40) ++ ctx.buffer
              ++ ctx.screen_buffer.drop ((ctx.bufnum - 1) * 40 + 40)).take
                (ctx.bufnum * 40)
              = ctx.screen_buffer.take ((ctx.bufnum - 1) * 40) ++ ctx.buffer :=
            List.take_left' (by simp [hAlen, hbuf]; omega)
          refine ⟨?_, ?_, ?_, ?_, ?_⟩
          · refine ⟨?_, ?_, ?_⟩
            · simpa [hdata] using hbuf
            · simp only [hdata]
              simp [hAlen, hbuf, hscr]
              omega
            · intro
              refine ⟨?_, ?_, ?_⟩
              · simp [handle_received_buffer_bufnum]
              · simp [handle_received_buffer_bufnum]
                omega
              · simp
          · rw [accumulated_is _ (by simp [handle_received_buffer_state, hst])]
            simp only [h2000]
            calc (List.take _ _).length
                ≤ (handle_received_buffer ctx).screen_buffer.length :=
                  List.length_take_le' _ _
              _ = 2000 := by
                  simp only [hdata]
                  simp [hAlen, hbuf, hscr]
                  omega
          · intro h
            exact absurd h (by simp)
          · intro hl
            exact absurd hl hnl
          · intro _ _
            refine ⟨ctx.buffer, ?_⟩
            rw [accumulated_is _ (by simp [handle_received_buffer_state, hst]), hais]
            simp only [handle_received_buffer_bufnum, hdata]
            rw [show (ctx.bufnum + 1 - 1) * DATA_PER_BUFFER = ctx.bufnum * 40 from by
              simp [DATA_PER_BUFFER]]
            rw [show (ctx.bufnum - 1) * DATA_PER_BUFFER = (ctx.bufnum - 1) * 40 from by
              simp [DATA_PER_BUFFER]]
            exact htk
      · rw [step_loss ctx byte hst hlt hmb]
        refine ⟨⟨by simpa using hbuf, by simpa using hscr, ?_⟩, ?_, ?_, ?_, ?_⟩
        · intro h
          exact nomatch h
        · rw [accumulated_cz _ (by simp)]
          simp
        · intro h
          exact absurd h (by simp)
        · intro
          exact ⟨accumulated_cz _ (by simp), rfl⟩
        · intro _ hnl
          exact absurd ⟨hst, hlt, hmb⟩ hnl

/-- Witness for C4 at a concrete input: the invariant holds at the initial
context and is preserved by feeding one zero byte, with all the
accumulator clauses instantiated there. -/
theorem C4_witness :
    CtxInv (handle_received_byte init_receiver_context 0).1 ∧
      (accumulated_frame_data (handle_received_byte init_receiver_context 0).1).length
        ≤ CBM_8032_FRAME_DATA_LEN ∧
      ((handle_received_byte init_receiver_context 0).2 = true →
        accumulated_frame_data (handle_received_byte init_receiver_context 0).1 = [] ∧
          (handle_received_byte init_receiver_context 0).1.screen_buffer
            = accumulated_frame_data init_receiver_context) ∧
      (sync_loss init_receiver_context 0 →
        accumulated_frame_data (handle_received_byte init_receiver_context 0).1 = [] ∧
          (handle_received_byte init_receiver_context 0).2 = false) ∧
      ((handle_received_byte init_receiver_context 0).2 = false →
        ¬ sync_loss init_receiver_context 0 →
        ∃ t, accumulated_frame_data (handle_received_byte init_receiver_context 0).1
          = accumulated_frame_data init_receiver_context ++ t) :=
  C4_accumulator_invariant init_receiver_context 0
    ⟨by simp [init_receiver_context],
      by simp [init_receiver_context, CBM_8032_FRAME_DATA_LEN],
      by
        intro h
        simp [init_receiver_context] at h⟩

/-- **C7** (confirmed): `try_recv_frame` drains every buffered channel
message; when the queue is non-empty it returns `some` of the newest frame
and caches that message's rate sample; on an empty queue it returns `none`
with the handle unchanged, and in particular a second consecutive call
with no new data returns `none` and leaves the cached rate sample (as
returned by `frame_hz`) exactly as the first call left it. -/
theorem C7_try_recv_frame (h : Handle) :
    (h.try_recv_frame).2.rx = [] ∧
      (∀ q f hz, h.rx = q ++ [(f, hz)] →
        (h.try_recv_frame).1 = some f ∧ (h.try_recv_frame).2.frame_hz = hz) ∧
      (h.rx = [] → h.try_recv_frame = (none, h)) ∧
      ((h.try_recv_frame).2.try_recv_frame.1 = none ∧
        (h.try_recv_frame).2.try_recv_frame.2.frame_hz
          = (h.try_recv_frame).2.frame_hz) := by
  obtain ⟨rx, hz0⟩ := h
  have hdrain : ∀ (g : Handle), g.try_recv_frame.2.rx = [] := by
    intro g
    rw [Handle.try_recv_frame]
    cases hg : g.rx.getLast? with
    | none => rfl
    | some p => obtain ⟨f, z⟩ := p; rfl
  refine ⟨hdrain _, ?_, ?_, ?_⟩
  · intro q f hz hq
    simp only at hq
    subst hq
    rw [Handle.try_recv_frame]
    simp [List.getLast?_concat, Handle.frame_hz]
  · intro hq
    simp only at hq
    subst hq
    rfl
  · constructor
    · rw [Handle.try_recv_frame]
      rw [show (Handle.try_recv_frame ⟨rx, hz0⟩).2.rx = [] from hdrain _]
      rfl
    · rw [Handle.try_recv_frame]
      rw [show (Handle.try_recv_frame ⟨rx, hz0⟩).2.rx = [] from hdrain _]
      rfl

/-- Witness for C7 at a concrete handle holding two queued messages: the
call returns the newest frame, caches its rate sample, and a second call
returns `none` with the cache intact. -/
theorem C7_witness :
    (Handle.try_recv_frame
        ⟨[(⟨Cbm8032FrameMode.Graphics, [1, 2]⟩, ⟨1, 2, 3⟩),
          (⟨Cbm8032FrameMode.Text, [3]⟩, ⟨4, 5, 6⟩)], ⟨0, 0, 0⟩⟩).1
      = some ⟨Cbm8032FrameMode.Text, [3]⟩ ∧
    (Handle.try_recv_frame
        ⟨[(⟨Cbm8032FrameMode.Graphics, [1, 2]⟩, ⟨1, 2, 3⟩),
          (⟨Cbm8032FrameMode.Text, [3]⟩, ⟨4, 5, 6⟩)], ⟨0, 0, 0⟩⟩).2.frame_hz
      = ⟨4, 5, 6⟩ ∧
    (Handle.try_recv_frame
        ⟨[(⟨Cbm8032FrameMode.Graphics, [1, 2]⟩, ⟨1, 2, 3⟩),
          (⟨Cbm8032FrameMode.Text, [3]⟩, ⟨4, 5, 6⟩)],
        ⟨0, 0, 0⟩⟩).2.try_recv_frame.1 = none := by
  have h := C7_try_recv_frame
    ⟨[(⟨Cbm8032FrameMode.Graphics, [1, 2]⟩, ⟨1, 2, 3⟩),
      (⟨Cbm8032FrameMode.Text, [3]⟩, ⟨4, 5, 6⟩)], ⟨0, 0, 0⟩⟩
  have hlast := h.2.1 [(⟨Cbm8032FrameMode.Graphics, [1, 2]⟩, ⟨1, 2, 3⟩)]
    ⟨Cbm8032FrameMode.Text, [3]⟩ ⟨4, 5, 6⟩ rfl
  exact ⟨hlast.1, hlast.2, h.2.2.2.1⟩

/-- **C8** (amended): `receive_screen` hands control back to the outer loop
— the only place the closing flag is polled — exactly when a completion
occurs among the available bytes; with no completion it keeps reading
forever (`none`), however much buffered data is drained.  So the flag is
polled once per completed frame, and shutdown does require a further
complete frame regardless of the read timeout. -/
theorem C8_flag_poll_per_frame (ctx : ReceiverContext) (bytes : List Nat) :
    receive_screen ctx bytes = none ↔ (run_frames ctx bytes).2 = [] := by
  induction bytes generalizing ctx with
  | nil => simp [receive_screen, run_frames]
  | cons b bs ih =>
    simp only [receive_screen, run_frames]
    cases hc : (handle_received_byte ctx b).2 with
    | true => simp [hc]
    | false => simp [hc, ih]

/-- Counterexample to C8 as stated: 2500 buffered zero bytes — more than a
whole frame's worth of drained data — are consumed without `receive_screen`
ever returning control to the outer loop, so the closing flag is not
observed within one outer receive cycle bounded by the buffered data: the
receiver needs a further complete frame before it checks the flag. -/
theorem C8_counterexample :
    receive_screen init_receiver_context (List.replicate 2500 0) = none := by
  decide

theorem calc_min_spec (i : Inner) (h : i.window ≠ []) :
    ∃ dmax, dmax ∈ i.window ∧ (∀ x ∈ i.window, x ≤ dmax) ∧
      i.calc_min = 1 / dmax := by
  cases hmax : i.window.max? with
  | none => exact absurd (List.max?_eq_none_iff.mp hmax) h
  | some dmax =>
    refine ⟨dmax, List.max?_mem (fun a b => max_choice a b) hmax, ?_, ?_⟩
    · exact fun x hx =>
        (List.max?_le_iff (fun a b c => max_le_iff) hmax).mp le_rfl x hx
    · rw [Inner.calc_min, hmax]
      rfl

theorem calc_max_spec (i : Inner) (h : i.window ≠ []) :
    ∃ dmin, dmin ∈ i.window ∧ (∀ x ∈ i.window, dmin ≤ x) ∧
      i.calc_max = 1 / dmin := by
  cases hmin : i.window.min? with
  | none => exact absurd (List.min?_eq_none_iff.mp hmin) h
  | some dmin =>
    refine ⟨dmin, List.min?_mem (fun a b => min_choice a b) hmin, ?_, ?_⟩
    · exact fun x hx =>
        (List.le_min?_iff (fun a b c => le_min_iff) hmin).mp le_rfl x hx
    · rw [Inner.calc_max, hmin]
      rfl

/-- **C9** (confirmed): before any sample (empty window) all three published
rates are 0, as set by the constructor; after every `sample` call, with `w`
the updated window, the published `avg` equals `1 / (w.sum / w.length)`,
the published `min` is the reciprocal of the largest delta in `w`, and the
published `max` the reciprocal of the smallest. -/
theorem C9_rates (n : Nat) (f : Fps) (delta : ℚ) :
    ((Fps.with_window_len n).avg = 0 ∧ (Fps.with_window_len n).min = 0 ∧
        (Fps.with_window_len n).max = 0) ∧
      (f.sample delta).avg
        = 1 / ((f.sample delta).inner.window.sum
            / ((f.sample delta).inner.window.length : ℚ)) ∧
      ((f.sample delta).inner.window ≠ [] →
        ∃ dmax, dmax ∈ (f.sample delta).inner.window ∧
          (∀ x ∈ (f.sample delta).inner.window, x ≤ dmax) ∧
            (f.sample delta).min = 1 / dmax) ∧
      ((f.sample delta).inner.window ≠ [] →
        ∃ dmin, dmin ∈ (f.sample delta).inner.window ∧
          (∀ x ∈ (f.sample delta).inner.window, dmin ≤ x) ∧
            (f.sample delta).max = 1 / dmin) := by
  refine ⟨⟨rfl, rfl, rfl⟩, rfl, ?_, ?_⟩
  · intro hne
    exact calc_min_spec (f.sample delta).inner hne
  · intro hne
    exact calc_max_spec (f.sample delta).inner hne

/-- Witness for C9 at a concrete input: the default-size tracker starts at
rate 0 and one sample with delta 1/2 s publishes a window of `[1/2]`. -/
theorem C9_witness :
    ((Fps.with_window_len 60).avg = 0 ∧ (Fps.with_window_len 60).min = 0 ∧
        (Fps.with_window_len 60).max = 0) ∧
      ((Fps.with_window_len 60).sample (1/2)).avg
        = 1 / ((((Fps.with_window_len 60).sample (1/2)).inner.window.sum)
            / (((Fps.with_window_len 60).sample (1/2)).inner.window.length : ℚ)) ∧
      (∃ dmax, dmax ∈ ((Fps.with_window_len 60).sample (1/2)).inner.window ∧
        (∀ x ∈ ((Fps.with_window_len 60).sample (1/2)).inner.window, x ≤ dmax) ∧
          ((Fps.with_window_len 60).sample (1/2)).min = 1 / dmax) := by
  have h := C9_rates 60 (Fps.with_window_len 60) (1/2)
  refine ⟨h.1, h.2.1, h.2.2.1 ?_⟩
  decide

end Cbm
